import Mathlib

/-!
Verification of the collaborative update-reconciliation engine.

A shallow embedding of the core logic of the `jupyter-analytics-telemetry`
extension: the merge algorithm of `updateNotebookContent`
(`src/utils/notebookSync.ts`), the pending-update store helpers, the
`WebsocketManager` connection life cycle and inbound message normalisation,
and the pending-updates sidebar's sorting and batch operations.

Conventions of the embedding:
* a notebook document is a list of `Cell`s in document order;
* the identity mapping (`getOrigCellMapping`) is represented by its
  originalCellId column: a `List String` with one entry per cell, in
  document order;
* JS `Array.prototype.lastIndexOf` is `lastIndexOf` below, returning
  `Option Nat` instead of `-1`;
* host-document mutations (JupyterLab `sharedModel` calls) are modelled as
  pure list transformations; the possibility that such a call raises is a
  boolean fault flag on the panel model.
-/

/-- The senderType of a message or pending update: the TS union
`'teacher' | 'teammate'`. -/
inductive SenderType where
  | teacher
  | teammate
deriving Repr, DecidableEq

/-- A notebook cell as observed by the sync engine: its text
(`model.sharedModel.getSource()`) and its cell type (`'code'`, `'markdown'`). -/
structure Cell where
  source : String
  cellType : String
deriving Repr, DecidableEq

/-- Fallback cell standing for JS `undefined` when `notebook.widgets[i]` is
accessed out of range. -/
def defaultCell : Cell := { source := "", cellType := "code" }

/-- One entry of the `cells` array of an incoming update payload
(`{id, cell_type?, source}`). `cellType = none` models an absent
`cell_type` field (the code then falls back to `'code'`). -/
structure CellUpdate where
  id : String
  cellType : Option String
  source : String
deriving Repr, DecidableEq

/-- Modelled from the spec: the identity mapping produced by
`getOrigCellMapping` (defined in `src/utils/utils.ts`, which is not among
the given sources; only its call sites are). Per spec §3/§4.1 it is an
ordered sequence with one originalCellId per cell currently in the
document, in document order; we represent just that column and pass it to
the functions that consult it, as the call sites do. -/
def IdentityMapping : Type := List String

/-- The document-owned sync state that `updateNotebookContent` mutates: the
cell list and the `updatedCells` metadata entry (the UpdatedCellsSet). -/
structure SyncState where
  cells : List Cell
  updatedCells : List String
deriving Repr, DecidableEq

/-- JS `Array.prototype.lastIndexOf`, with `none` for `-1`: index of the
last occurrence of `x` in `l`. Used at `notebookSync.ts:1294` and in the
sidebar's cell-sort comparator (`notebookSync.ts:916-917`). -/
def lastIndexOf : List String → String → Option Nat
  | [], _ => none
  | a :: as, x =>
    match lastIndexOf as x with
    | some i => some (i + 1)
    | none => if a = x then some 0 else none

/-- The markCellAsUpdated helper (`notebookSync.ts:299-309`) on the stored
updated-cells list: append the id unless it is already present. -/
def markCellAsUpdated (updatedCells : List String) (cellId : String) : List String :=
  if updatedCells.contains cellId then updatedCells else updatedCells ++ [cellId]

/-- The `cell_type || 'code'` fallback (`notebookSync.ts:1295`). -/
def cellTypeOf (u : CellUpdate) : String :=
  u.cellType.getD "code"

/-- The received-timestamp prefixed source built at `notebookSync.ts:1296-1301`
(comment syntax adapts to markdown vs code cells). -/
def cellUpdateSourceOf (timeReceived : String) (u : CellUpdate) : String :=
  if cellTypeOf u = "markdown" then
    "CELL RECEIVED AT " ++ timeReceived ++ "\n\n" ++ u.source
  else
    "# CELL RECEIVED AT " ++ timeReceived ++ "\n\n" ++ u.source

/-- One iteration of the `for (const cellUpdate of cellUpdates)` loop of
`updateNotebookContent` (`notebookSync.ts:1293-1354`).

`origCellMapping` and `staleUpdatedCells` are the snapshots taken once at
function entry (`notebookSync.ts:1288,1291`); `st.updatedCells` is the live
metadata that `markCellAsUpdated` reads and writes.

* id not in the mapping: append the incoming content as a brand-new cell at
  the end (`addCell`, lines 1303-1308);
* first update to this id: insert a fresh cell above the target
  (`insertAbove`), switch its type for markdown updates
  (`changeCellType`), fill it with `# YOUR CODE\n\n` plus the prior
  content, overwrite the shifted original with the timestamped incoming
  content, and record the id (lines 1312-1342);
* subsequent update: overwrite the target's source in place
  (lines 1343-1350). -/
def applyCellUpdate (timeReceived : String) (origCellMapping staleUpdatedCells : List String)
    (st : SyncState) (cellUpdate : CellUpdate) : SyncState :=
  let cellUpdateSource := cellUpdateSourceOf timeReceived cellUpdate
  match lastIndexOf origCellMapping cellUpdate.id with
  | none =>
    { st with cells := st.cells ++ [{ source := cellUpdateSource, cellType := cellTypeOf cellUpdate }] }
  | some cellIndex =>
    if staleUpdatedCells.contains cellUpdate.id then
      let existingCell := st.cells.getD cellIndex defaultCell
      { st with cells := st.cells.set cellIndex { existingCell with source := cellUpdateSource } }
    else
      let existingSource := (st.cells.getD cellIndex defaultCell).source
      let cells₁ := st.cells.insertIdx cellIndex { source := "", cellType := "code" }
      let cells₂ :=
        if cellTypeOf cellUpdate = "markdown" then
          cells₁.set cellIndex { cells₁.getD cellIndex defaultCell with cellType := "markdown" }
        else cells₁
      let cells₃ := cells₂.set cellIndex
        { cells₂.getD cellIndex defaultCell with source := "# YOUR CODE\n\n" ++ existingSource }
      let cells₄ := cells₃.set (cellIndex + 1)
        { cells₃.getD (cellIndex + 1) defaultCell with source := cellUpdateSource }
      { cells := cells₄, updatedCells := markCellAsUpdated st.updatedCells cellUpdate.id }

/-- The whole cell loop of `updateNotebookContent`
(`notebookSync.ts:1283-1354`): the identity mapping and the
`updatedCells` list are read once before the loop and not refreshed
between iterations. -/
def updateNotebookCells (timeReceived : String) (origCellMapping : List String)
    (st : SyncState) (cellUpdates : List CellUpdate) : SyncState :=
  cellUpdates.foldl (applyCellUpdate timeReceived origCellMapping st.updatedCells) st

/-- One queued pending update (`IPendingUpdate`, `notebookSync.ts:154-162`).
`message` is kept in parsed form, as the `cells` array the merge loop
iterates over; `updateId`/`cellId` are the optional TS fields. -/
structure IPendingUpdate where
  id : String
  message : List CellUpdate
  timeReceived : String
  sender : String
  senderType : SenderType
  updateId : Option String
  cellId : Option String
deriving Repr, DecidableEq

/-- The "Update Later" upsert (`notebookSync.ts:1249-1251`): drop any stored
update with the same id, then push the new one. -/
def upsertPendingUpdate (updates : List IPendingUpdate) (newUpdate : IPendingUpdate) :
    List IPendingUpdate :=
  updates.filter (fun u => u.id ≠ newUpdate.id) ++ [newUpdate]

/-- The panel-level state that `applyPendingUpdate` touches. `isDisposed`
is `panel.isDisposed`; `hostMutationFault` models a host document mutation
(`insertAbove` / `setSource` / `scrollToItem` on the JupyterLab shared
model, spec §6) raising while the panel is alive — spec §7's
"document-state faults". -/
structure NotebookPanelModel where
  isDisposed : Bool
  hostMutationFault : Bool
  origCellMapping : List String
  sync : SyncState
deriving Repr, DecidableEq

/-- The try-block of `updateNotebookContent` (`notebookSync.ts:1282-1383`):
either the host mutations raise (`Except.error`) or the cell loop runs to
completion. -/
def updateNotebookContentTry (panel : NotebookPanelModel) (timeReceived : String)
    (cellUpdates : List CellUpdate) : Except String NotebookPanelModel :=
  if panel.hostMutationFault then
    Except.error "host document mutation raised"
  else
    Except.ok { panel with
      sync := updateNotebookCells timeReceived panel.origCellMapping panel.sync cellUpdates }

/-- What callers observe of updateNotebookContent: the catch at
`notebookSync.ts:1384-1386` logs the error and returns normally, so a
mutation failure is swallowed and never propagates to the caller. -/
def updateNotebookContent (panel : NotebookPanelModel) (timeReceived : String)
    (cellUpdates : List CellUpdate) : NotebookPanelModel :=
  match updateNotebookContentTry panel timeReceived cellUpdates with
  | Except.ok p => p
  | Except.error _ => panel

/-- The removePendingUpdate helper (`notebookSync.ts:193-223`) restricted to its
effect on the stored list: early return if the panel is disposed, else
filter out the entry with the given id. -/
def removePendingUpdateStore (panel : NotebookPanelModel) (updates : List IPendingUpdate)
    (cellId : String) : List IPendingUpdate :=
  if panel.isDisposed then updates
  else updates.filter (fun u => u.id ≠ cellId)

/-- The applyPendingUpdate flow (`notebookSync.ts:226-279`): await
`updateNotebookContent` (which cannot throw, see above), then
unconditionally call `removePendingUpdate` on the pending entry's id. -/
def applyPendingUpdate (panel : NotebookPanelModel) (updates : List IPendingUpdate)
    (pending : IPendingUpdate) (timeReceived : String) :
    NotebookPanelModel × List IPendingUpdate :=
  let panel' := updateNotebookContent panel timeReceived pending.message
  (panel', removePendingUpdateStore panel' updates pending.id)

/-- One record posted to the external interaction log
(`logPendingUpdateInteraction`, `notebookSync.ts:22-64`). -/
structure LogRecord where
  action : String
  cellId : Option String
  sender : Option String
  senderType : Option SenderType
  updateId : Option String
deriving Repr, DecidableEq

/-- The logPendingUpdateInteraction helper (`notebookSync.ts:22-64`): drops the
record when there is no persistent user id or no notebook id, else posts
exactly one record. -/
def logPendingUpdateInteraction (persistentUserId notebookId : Option String)
    (action : String) (cellId : Option String) (sender : Option String)
    (senderType : Option SenderType) (updateId : Option String) : List LogRecord :=
  match persistentUserId with
  | none => []
  | some _ =>
    match notebookId with
    | none => []
    | some _ => [{ action := action, cellId := cellId, sender := sender,
                   senderType := senderType, updateId := updateId }]

/-- The `APPLY_SINGLE` logging block at the end of `updateNotebookContent`
(`notebookSync.ts:1356-1383`): skipped entirely when `skipLogging` is set
or `updateId`/user id is absent; otherwise one record per entry of the
payload's `cells` array, gated on the notebook id. -/
def updateNotebookContentLogs (persistentUserId notebookId : Option String)
    (cellUpdates : List CellUpdate) (updateId : Option String) (cellId : Option String)
    (sender : Option String) (senderType : Option SenderType) (skipLogging : Bool) :
    List LogRecord :=
  if skipLogging = false ∧ updateId.isSome ∧ persistentUserId.isSome then
    match notebookId with
    | none => []
    | some nb =>
      cellUpdates.flatMap (fun cu =>
        logPendingUpdateInteraction persistentUserId (some nb) "APPLY_SINGLE"
          (some (cellId.getD cu.id)) sender senderType updateId)
  else []

/-- The log records emitted by one `applyPendingUpdate` call
(`notebookSync.ts:226-279`): the `updateNotebookContent` call with the
given `skipLogging`, followed by `removePendingUpdate` with
`logInteraction = false` (which logs nothing). -/
def applyPendingUpdateLogs (persistentUserId notebookId : Option String)
    (pending : IPendingUpdate) (skipLogging : Bool) : List LogRecord :=
  updateNotebookContentLogs persistentUserId notebookId pending.message
    pending.updateId pending.cellId (some pending.sender) (some pending.senderType)
    skipLogging

/-- The sender filter modes of the sidebar (`_filterMode`,
`notebookSync.ts:321`). -/
inductive FilterMode where
  | all
  | teacher
  | teammates
  | selected
deriving Repr, DecidableEq

/-- The getFilteredUpdates view (`notebookSync.ts:757-785`) on a live panel:
restrict the stored pending updates to the current sender filter;
`selected` further intersects with the explicit allow-set of teammate
ids. -/
def getFilteredUpdates (mode : FilterMode) (selectedTeammateFilters : List String)
    (updates : List IPendingUpdate) : List IPendingUpdate :=
  match mode with
  | FilterMode.teacher => updates.filter (fun u => u.senderType = SenderType.teacher)
  | FilterMode.teammates => updates.filter (fun u => u.senderType = SenderType.teammate)
  | FilterMode.selected => updates.filter (fun u =>
      u.senderType = SenderType.teammate ∧ u.sender ∈ selectedTeammateFilters)
  | FilterMode.all => updates

/-- The Apply All click handler (`notebookSync.ts:435-461`), observed
through the pair (updates handed to `applyPendingUpdate`, in order; log
records emitted). It operates on the currently filtered view of the
store; `UPDATE_ALL` is attempted only when the first filtered update
carries an `updateId`; every per-item apply passes `skipLogging = true`. -/
def applyAllClick (persistentUserId notebookId : Option String) (panelDisposed : Bool)
    (mode : FilterMode) (selectedTeammateFilters : List String)
    (store : List IPendingUpdate) : List IPendingUpdate × List LogRecord :=
  if panelDisposed then ([], [])
  else
    let filteredUpdates := getFilteredUpdates mode selectedTeammateFilters store
    if filteredUpdates.isEmpty then ([], [])
    else
      let updateAllLogs :=
        match filteredUpdates.head? with
        | some u0 =>
          match u0.updateId with
          | some uid =>
            logPendingUpdateInteraction persistentUserId notebookId "UPDATE_ALL"
              none (some u0.sender) (some u0.senderType) (some uid)
          | none => []
        | none => []
      let perItemLogs := filteredUpdates.flatMap (fun u =>
        applyPendingUpdateLogs persistentUserId notebookId u true)
      (filteredUpdates, updateAllLogs ++ perItemLogs)

/-- One live socket.io connection, identified by the notebook and user ids
it was created with (`WebsocketManager._createSocket`). -/
structure SocketConn where
  notebookId : String
  userId : String
deriving Repr, DecidableEq

/-- The `WebsocketManager` state: `_socket` (`Socket | null`), the
registered `_messageCallback` (as an opaque token), and — for observing
teardown — the list of connections on which `close()` has been called. -/
structure WebsocketManager where
  socket : Option SocketConn
  messageCallback : Option String
  closedConnections : List SocketConn
deriving Repr, DecidableEq

/-- The closeSocketConnection teardown (`WebsocketManager.ts`): `close()` the socket
if there is one, then null it out. -/
def closeSocketConnection (m : WebsocketManager) : WebsocketManager :=
  match m.socket with
  | some s => { m with socket := none, closedConnections := m.closedConnections ++ [s] }
  | none => { m with socket := none }

/-- The establishSocketConnection entry point `(notebookId, onMessage)`: always tear down
any existing connection first, register the callback, then create a socket
only when both the notebook id and the persistent user id are present. -/
def establishSocketConnection (persistentUserId : Option String) (m : WebsocketManager)
    (notebookId : Option String) (onMessage : String) : WebsocketManager :=
  let m₁ := { closeSocketConnection m with messageCallback := some onMessage }
  match notebookId, persistentUserId with
  | some nb, some uid => { m₁ with socket := some { notebookId := nb, userId := uid } }
  | _, _ => m₁

/-- The whitespace class of the JS regex `\s` restricted to the ASCII
escapes (space, tab, line feed, carriage return, vertical tab, form feed);
messages are modelled as their character lists. -/
def jsWhitespace (c : Char) : Bool :=
  c = ' ' ∨ c = '\t' ∨ c = '\n' ∨ c = '\r' ∨ c = '\x0b' ∨ c = '\x0c'

/-- JS `String.prototype.trim` on a character list: strip whitespace from
both ends. -/
def trimChars (s : List Char) : List Char :=
  ((s.dropWhile jsWhitespace).reverse.dropWhile jsWhitespace).reverse

/-- The capture group of `data.match(/^From\s+([^:]+):/)`
(`WebsocketManager._createSocket`, 'chat'/'group_chat' handlers).

Deterministic form of the regex: after the literal `From`, the greedy
`\s+` takes `min(maximal whitespace run, chars before the first colon - 1)`
characters (backing off just enough to leave the mandatory `[^:]+`
non-empty), and the group is everything from there to the first colon;
the match fails without a colon, without a leading whitespace character,
or with fewer than two characters before the first colon. -/
def fromPrefixCapture (s : List Char) : Option (List Char) :=
  match s with
  | 'F' :: 'r' :: 'o' :: 'm' :: r =>
    match r.findIdx? (fun c => c = ':') with
    | none => none
    | some p =>
      let maxWs := (r.takeWhile jsWhitespace).length
      let k := min maxWs (p - 1)
      if 1 ≤ k ∧ 1 ≤ p - k then some ((r.drop k).take (p - k)) else none
  | _ => none

/-- The legacy-string branch of the `'chat'` handler
(`WebsocketManager._createSocket`): sender defaults to `'teacher'`, is
replaced by the trimmed capture when the `From <peerId>:` prefix matches,
and the callback receives the full original string with
`senderType = 'teacher'`. -/
def chatEventArgs (data : List Char) : List Char × List Char × SenderType :=
  let senderId :=
    match fromPrefixCapture data with
    | some g => if g ≠ [] then trimChars g else "teacher".toList
    | none => "teacher".toList
  (data, senderId, SenderType.teacher)

/-- The legacy-string branch of the `'group_chat'` handler: identical to
the `'chat'` one except that the default sender and the senderType are
`'teammate'`. -/
def groupChatEventArgs (data : List Char) : List Char × List Char × SenderType :=
  let senderId :=
    match fromPrefixCapture data with
    | some g => if g ≠ [] then trimChars g else "teammate".toList
    | none => "teammate".toList
  (data, senderId, SenderType.teammate)

/-- The sort key of the sidebar's cell sort (`notebookSync.ts:916-917`):
the target's position per `lastIndexOf`, `none` for `-1` (which the
comparator maps to `Number.POSITIVE_INFINITY`). -/
def cellSortKey (origMapping : List String) (u : IPendingUpdate) : Option Nat :=
  lastIndexOf origMapping u.id

/-- The order induced by the comparator `ai - bi` of `notebookSync.ts:914-921`,
with `none` playing `Infinity` (all unmapped entries compare equal, hence
after every mapped entry). -/
def cellKeyLe : Option Nat → Option Nat → Bool
  | some a, some b => a ≤ b
  | some _, none => true
  | none, some _ => false
  | none, none => true

/-- The sidebar sort `updates.slice().sort(comparator)` for the `'cell'` sort key
(`notebookSync.ts:910-922`): JS `Array.prototype.sort` is a stable sort,
embedded as a stable merge sort over `cellKeyLe` on the sort keys. -/
def sortPendingByCell (origMapping : List String) (updates : List IPendingUpdate) :
    List IPendingUpdate :=
  updates.mergeSort (fun a b =>
    cellKeyLe (cellSortKey origMapping a) (cellSortKey origMapping b))

theorem lastIndexOf_lt_length {l : List String} {x : String} {i : Nat}
    (h : lastIndexOf l x = some i) : i < l.length := by
  induction l generalizing i with
  | nil => simp [lastIndexOf] at h
  | cons a as ih =>
    simp only [lastIndexOf, List.length_cons] at h ⊢
    cases hAs : lastIndexOf as x with
    | some j =>
      rw [hAs] at h
      cases h
      exact Nat.succ_lt_succ (ih hAs)
    | none =>
      rw [hAs] at h
      by_cases hax : a = x
      · rw [if_pos hax] at h
        cases h
        simp
      · simp [hax] at h

theorem lastIndexOf_eq_none_iff {l : List String} {x : String} :
    lastIndexOf l x = none ↔ x ∉ l := by
  induction l with
  | nil => simp [lastIndexOf]
  | cons a as ih =>
    cases hAs : lastIndexOf as x with
    | some j =>
      simp only [lastIndexOf, hAs, List.mem_cons, not_or]
      constructor
      · intro h
        simp at h
      · rintro ⟨h1, h2⟩
        exact absurd hAs (by rw [ih.mpr h2]; simp)
    | none =>
      have hx : x ∉ as := ih.mp hAs
      simp only [lastIndexOf, hAs, List.mem_cons, not_or]
      by_cases hax : a = x
      · simp [hax]
      · simp [hax, Ne.symm hax, hx]

theorem lastIndexOf_getElem? {l : List String} {x : String} {i : Nat}
    (h : lastIndexOf l x = some i) : l[i]? = some x := by
  induction l generalizing i with
  | nil => simp [lastIndexOf] at h
  | cons a as ih =>
    simp only [lastIndexOf] at h
    cases hAs : lastIndexOf as x with
    | some j =>
      rw [hAs] at h
      cases h
      simpa using ih hAs
    | none =>
      rw [hAs] at h
      by_cases hax : a = x
      · rw [if_pos hax] at h
        cases h
        simpa using hax
      · rw [if_neg hax] at h
        simp at h

theorem lastIndexOf_last {l : List String} {x : String} {i : Nat}
    (h : lastIndexOf l x = some i) : ∀ j, i < j → l[j]? ≠ some x := by
  induction l generalizing i with
  | nil => simp [lastIndexOf] at h
  | cons a as ih =>
    simp only [lastIndexOf] at h
    cases hAs : lastIndexOf as x with
    | some k =>
      rw [hAs] at h
      cases h
      intro j hj
      cases j with
      | zero => omega
      | succ j' =>
        simpa using ih hAs j' (by omega)
    | none =>
      rw [hAs] at h
      by_cases hax : a = x
      · rw [if_pos hax] at h
        cases h
        intro j hj hmem
        cases j with
        | zero => omega
        | succ j' =>
          have hx : x ∉ as := lastIndexOf_eq_none_iff.mp hAs
          simp only [List.getElem?_cons_succ] at hmem
          rcases List.getElem?_eq_some_iff.mp hmem with ⟨hlt, hget⟩
          exact hx (hget ▸ List.getElem_mem hlt)
      · rw [if_neg hax] at h
        simp at h

theorem mem_markCellAsUpdated (l : List String) (x : String) :
    x ∈ markCellAsUpdated l x := by
  by_cases h : x ∈ l <;> simp [markCellAsUpdated, h]

/-- Claim C10: `markCellAsUpdated` is idempotent — calling it when the id is
already recorded in the UpdatedCellsSet metadata leaves the stored list
unchanged, and the stored list never acquires duplicate ids. -/
theorem markCellAsUpdated_idempotent (l : List String) (x : String) :
    (x ∈ l → markCellAsUpdated l x = l) ∧
    markCellAsUpdated (markCellAsUpdated l x) x = markCellAsUpdated l x ∧
    (l.Nodup → (markCellAsUpdated l x).Nodup) := by
  refine ⟨fun h => by simp [markCellAsUpdated, h], ?_, fun hnd => ?_⟩
  · by_cases h : x ∈ l <;> simp [markCellAsUpdated, h]
  · by_cases h : x ∈ l
    · simpa [markCellAsUpdated, h] using hnd
    · simp [markCellAsUpdated, h, List.nodup_append, hnd]

/-- Witness for `markCellAsUpdated_idempotent` at a concrete input. -/
theorem markCellAsUpdated_idempotent_witness :
    markCellAsUpdated ["o1"] "o1" = ["o1"] ∧ (markCellAsUpdated ["o1"] "o2").Nodup :=
  ⟨(markCellAsUpdated_idempotent ["o1"] "o1").1 (by decide),
   (markCellAsUpdated_idempotent ["o1"] "o2").2.2 (by decide)⟩

/-- Claim C4: the "Update Later" upsert is latest-wins replace-by-id — the
resulting store holds exactly one entry with the new update's id, namely
the new update itself (with its payload, sender, senderType and
timeReceived), and id-uniqueness of the store is preserved by every
upsert. -/
theorem upsertPendingUpdate_latest_wins (updates : List IPendingUpdate)
    (newUpdate : IPendingUpdate) :
    (upsertPendingUpdate updates newUpdate).filter
        (fun u => u.id = newUpdate.id) = [newUpdate] ∧
    ((updates.map IPendingUpdate.id).Nodup →
      ((upsertPendingUpdate updates newUpdate).map IPendingUpdate.id).Nodup) := by
  constructor
  · unfold upsertPendingUpdate
    rw [List.filter_append]
    have h1 : (updates.filter (fun u => u.id ≠ newUpdate.id)).filter
        (fun u => u.id = newUpdate.id) = [] := by
      rw [List.filter_eq_nil_iff]
      intro a ha
      have hne := List.of_mem_filter ha
      simp only [decide_eq_true_eq]
      simpa using hne
    simp [h1]
  · intro hnd
    unfold upsertPendingUpdate
    rw [List.map_append, List.nodup_append]
    refine ⟨((List.filter_sublist updates).map IPendingUpdate.id).nodup hnd, by simp, ?_⟩
    intro a ha
    rcases List.mem_map.mp ha with ⟨u, hu, hid⟩
    have hne := List.of_mem_filter hu
    simp only [List.map_cons, List.map_nil, List.mem_singleton]
    intro hc
    rw [hc] at hid
    simp [hid] at hne

/-- Witness for `upsertPendingUpdate_latest_wins` at a concrete input. -/
theorem upsertPendingUpdate_latest_wins_witness :
    (upsertPendingUpdate
        [⟨"c1", [], "t0", "s0", SenderType.teacher, none, none⟩]
        ⟨"c1", [], "t1", "s1", SenderType.teammate, some "u1", some "c1"⟩).filter
      (fun u => u.id = "c1") =
      [⟨"c1", [], "t1", "s1", SenderType.teammate, some "u1", some "c1"⟩] ∧
    ((upsertPendingUpdate
        [⟨"c1", [], "t0", "s0", SenderType.teacher, none, none⟩]
        ⟨"c1", [], "t1", "s1", SenderType.teammate, some "u1", some "c1"⟩).map
      IPendingUpdate.id).Nodup :=
  ⟨(upsertPendingUpdate_latest_wins
      [⟨"c1", [], "t0", "s0", SenderType.teacher, none, none⟩]
      ⟨"c1", [], "t1", "s1", SenderType.teammate, some "u1", some "c1"⟩).1,
   (upsertPendingUpdate_latest_wins
      [⟨"c1", [], "t0", "s0", SenderType.teacher, none, none⟩]
      ⟨"c1", [], "t1", "s1", SenderType.teammate, some "u1", some "c1"⟩).2 (by decide)⟩

/-- Claim C5: an update whose original id is not in the identity mapping is
appended as a brand-new cell at the end of the document, carrying the
timestamp-prefixed incoming content; all existing cells and the
UpdatedCellsSet are untouched. The embedded merge step is a total
function, and this branch of it indexes nothing, mirroring that the
`addCell` path of `updateNotebookContent` (`notebookSync.ts:1303-1308`)
has no failure mode. -/
theorem updateNotebookContent_appends_unknown_id (timeReceived : String)
    (origCellMapping : List String) (st : SyncState) (u : CellUpdate)
    (h : u.id ∉ origCellMapping) :
    updateNotebookCells timeReceived origCellMapping st [u] =
      { st with cells := st.cells ++
          [{ source := cellUpdateSourceOf timeReceived u, cellType := cellTypeOf u }] } := by
  simp [updateNotebookCells, applyCellUpdate, lastIndexOf_eq_none_iff.mpr h]

/-- Witness for `updateNotebookContent_appends_unknown_id` at a concrete
input. -/
theorem updateNotebookContent_appends_unknown_id_witness :
    updateNotebookCells "T" ["o1"] ⟨[⟨"print(1)", "code"⟩], []⟩
        [⟨"o2", some "code", "print(2)"⟩] =
      ⟨[⟨"print(1)", "code"⟩,
        ⟨"# CELL RECEIVED AT T\n\nprint(2)", "code"⟩], []⟩ := by
  have h := updateNotebookContent_appends_unknown_id "T" ["o1"]
    ⟨[⟨"print(1)", "code"⟩], []⟩ ⟨"o2", some "code", "print(2)"⟩ (by decide)
  rw [h]
  rfl

/-- Claim C6: `establishSocketConnection` keeps at most one live connection
per process (the `_socket` field holds at most one socket by construction):
a second establish call with a different document id first `close()`s the
existing connection and leaves exactly the connection bound to the second
id; an establish call with a missing document id or a missing user id also
closes any prior connection and creates none. -/
theorem establishSocketConnection_single_live (m : WebsocketManager)
    (uid nb1 nb2 cb1 cb2 : String) (hne : nb1 ≠ nb2) :
    (establishSocketConnection (some uid) m (some nb1) cb1).socket =
        some ⟨nb1, uid⟩ ∧
    (establishSocketConnection (some uid)
        (establishSocketConnection (some uid) m (some nb1) cb1) (some nb2) cb2).socket =
        some ⟨nb2, uid⟩ ∧
    (⟨nb1, uid⟩ : SocketConn) ∈
      (establishSocketConnection (some uid)
        (establishSocketConnection (some uid) m (some nb1) cb1) (some nb2) cb2).closedConnections ∧
    (∀ cb, (establishSocketConnection (some uid)
        (establishSocketConnection (some uid) m (some nb1) cb1) none cb).socket = none ∧
      (⟨nb1, uid⟩ : SocketConn) ∈
        (establishSocketConnection (some uid)
          (establishSocketConnection (some uid) m (some nb1) cb1) none cb).closedConnections) ∧
    (∀ cb nb, (establishSocketConnection none
        (establishSocketConnection (some uid) m (some nb1) cb1) (some nb) cb).socket = none ∧
      (⟨nb1, uid⟩ : SocketConn) ∈
        (establishSocketConnection none
          (establishSocketConnection (some uid) m (some nb1) cb1) (some nb) cb).closedConnections) := by
  refine ⟨rfl, rfl, ?_, fun cb => ⟨rfl, ?_⟩, fun cb nb => ⟨rfl, ?_⟩⟩ <;>
    simp [establishSocketConnection, closeSocketConnection]

/-- Witness for `establishSocketConnection_single_live` at a concrete
input. -/
theorem establishSocketConnection_single_live_witness :
    (establishSocketConnection (some "u") ⟨none, none, []⟩ (some "nb1") "cb1").socket =
        some ⟨"nb1", "u"⟩ ∧
    (establishSocketConnection (some "u")
        (establishSocketConnection (some "u") ⟨none, none, []⟩ (some "nb1") "cb1")
        (some "nb2") "cb2").socket = some ⟨"nb2", "u"⟩ :=
  ⟨(establishSocketConnection_single_live ⟨none, none, []⟩ "u" "nb1" "nb2" "cb1" "cb2"
      (by decide)).1,
   (establishSocketConnection_single_live ⟨none, none, []⟩ "u" "nb1" "nb2" "cb1" "cb2"
      (by decide)).2.1⟩

theorem updateNotebookCells_singleton (timeReceived : String) (m : List String)
    (st : SyncState) (u : CellUpdate) :
    updateNotebookCells timeReceived m st [u] =
      applyCellUpdate timeReceived m st.updatedCells st u := rfl

/-- Claim C1: for an update whose original id resolves in the identity
mapping — the first update to that id duplicates the target above (the new
cell at the target's index holds the prior local content behind the
`# YOUR CODE` marker), overwrites the target (now one position down) with
the timestamp-prefixed incoming content, grows the cell count by exactly
one and records the id in the UpdatedCellsSet; a repeat update overwrites
the target in place, leaves every other cell and the cell count
unchanged. -/
theorem updateNotebookContent_first_vs_repeat (timeReceived : String)
    (origCellMapping : List String) (st : SyncState) (u : CellUpdate) (i : Nat)
    (hfound : lastIndexOf origCellMapping u.id = some i)
    (hlen : origCellMapping.length = st.cells.length) :
    (u.id ∉ st.updatedCells →
      (updateNotebookCells timeReceived origCellMapping st [u]).cells.length =
          st.cells.length + 1 ∧
      ((updateNotebookCells timeReceived origCellMapping st [u]).cells.getD i
          defaultCell).source =
          "# YOUR CODE\n\n" ++ (st.cells.getD i defaultCell).source ∧
      ((updateNotebookCells timeReceived origCellMapping st [u]).cells.getD (i + 1)
          defaultCell).source = cellUpdateSourceOf timeReceived u ∧
      u.id ∈ (updateNotebookCells timeReceived origCellMapping st [u]).updatedCells) ∧
    (u.id ∈ st.updatedCells →
      (updateNotebookCells timeReceived origCellMapping st [u]).cells.length =
          st.cells.length ∧
      ((updateNotebookCells timeReceived origCellMapping st [u]).cells.getD i
          defaultCell).source = cellUpdateSourceOf timeReceived u ∧
      (∀ j, j ≠ i →
        (updateNotebookCells timeReceived origCellMapping st [u]).cells.getD j
            defaultCell = st.cells.getD j defaultCell)) := by
  have hi : i < st.cells.length := hlen ▸ lastIndexOf_lt_length hfound
  rw [updateNotebookCells_singleton]
  constructor
  · intro hfresh
    have hcont : st.updatedCells.contains u.id = false := by simp [hfresh]
    simp only [applyCellUpdate, hfound, hcont, Bool.false_eq_true, if_false]
    by_cases hmd : cellTypeOf u = "markdown"
    · simp only [hmd, if_pos rfl]
      have hlen₁ : (st.cells.insertIdx i ⟨"", "code"⟩).length = st.cells.length + 1 :=
        List.length_insertIdx i st.cells (Nat.le_of_lt hi)
      refine ⟨by simp [List.length_set, hlen₁], ?_, ?_, mem_markCellAsUpdated _ _⟩
      · rw [List.getD_eq_getElem _ _ (by simp [List.length_set, hlen₁]; omega)]
        rw [List.getElem_set_ne (by omega), List.getElem_set_self]
      · rw [List.getD_eq_getElem _ _ (by simp [List.length_set, hlen₁]; omega)]
        rw [List.getElem_set_self]
    · rw [if_neg hmd]
      have hlen₁ : (st.cells.insertIdx i ⟨"", "code"⟩).length = st.cells.length + 1 :=
        List.length_insertIdx i st.cells (Nat.le_of_lt hi)
      refine ⟨by simp [List.length_set, hlen₁], ?_, ?_, mem_markCellAsUpdated _ _⟩
      · rw [List.getD_eq_getElem _ _ (by simp [List.length_set, hlen₁]; omega)]
        rw [List.getElem_set_ne (by omega), List.getElem_set_self]
      · rw [List.getD_eq_getElem _ _ (by simp [List.length_set, hlen₁]; omega)]
        rw [List.getElem_set_self]
  · intro hmem
    have hcont : st.updatedCells.contains u.id = true := by simp [hmem]
    simp only [applyCellUpdate, hfound, hcont, if_true]
    refine ⟨by simp [List.length_set], ?_, ?_⟩
    · rw [List.getD_eq_getElem _ _ (by simp [List.length_set]; omega)]
      rw [List.getElem_set_self]
    · intro j hj
      by_cases hjlen : j < st.cells.length
      · rw [List.getD_eq_getElem _ _ (by simp [List.length_set]; omega),
          List.getD_eq_getElem _ _ hjlen]
        exact List.getElem_set_ne (fun hc => hj hc.symm) _
      · rw [List.getD_eq_default _ _ (by simp [List.length_set]; omega),
          List.getD_eq_default _ _ (by omega)]

/-- Witness for `updateNotebookContent_first_vs_repeat` at the spec's own
end-to-end example (§8): one cell `print(1)` with original id `o1`,
receiving `print(2)`. -/
theorem updateNotebookContent_first_vs_repeat_witness :
    (updateNotebookCells "T" ["o1"] ⟨[⟨"print(1)", "code"⟩], []⟩
        [⟨"o1", some "code", "print(2)"⟩]).cells.length = 2 ∧
    ((updateNotebookCells "T" ["o1"] ⟨[⟨"print(1)", "code"⟩], []⟩
        [⟨"o1", some "code", "print(2)"⟩]).cells.getD 0 defaultCell).source =
        "# YOUR CODE\n\nprint(1)" ∧
    ((updateNotebookCells "T" ["o1"] ⟨[⟨"print(1)", "code"⟩], []⟩
        [⟨"o1", some "code", "print(2)"⟩]).cells.getD 1 defaultCell).source =
        "# CELL RECEIVED AT T\n\nprint(2)" ∧
    "o1" ∈ (updateNotebookCells "T" ["o1"] ⟨[⟨"print(1)", "code"⟩], []⟩
        [⟨"o1", some "code", "print(2)"⟩]).updatedCells := by
  have h := (updateNotebookContent_first_vs_repeat "T" ["o1"]
      ⟨[⟨"print(1)", "code"⟩], []⟩ ⟨"o1", some "code", "print(2)"⟩ 0
      (by decide) (by decide)).1 (by decide)
  refine ⟨h.1, ?_, ?_, h.2.2.2⟩
  · rw [h.2.1]
    rfl
  · rw [h.2.2.1]
    rfl

/-- Claim C2 counterexample: with identity mapping `["o1", "b", "o1"]` (the
original id `o1` occurs twice, none absorbed yet), the merge applies the
incoming update at the *last* occurrence (index 2: the duplicate-above
lands at index 2 and the timestamped overwrite at index 3), while the
cells at the first occurrence (indices 0 and 1) are left untouched —
contradicting the claim that the update is applied at the first occurrence
in document order (which would have put the duplicate-above at index 0 and
the timestamped overwrite at index 1). -/
theorem duplicate_id_first_occurrence_counterexample :
    updateNotebookCells "T" ["o1", "b", "o1"]
        ⟨[⟨"a0", "code"⟩, ⟨"a1", "code"⟩, ⟨"a2", "code"⟩], []⟩
        [⟨"o1", some "code", "new"⟩] =
      ⟨[⟨"a0", "code"⟩, ⟨"a1", "code"⟩, ⟨"# YOUR CODE\n\na2", "code"⟩,
        ⟨"# CELL RECEIVED AT T\n\nnew", "code"⟩], ["o1"]⟩ ∧
    (updateNotebookCells "T" ["o1", "b", "o1"]
        ⟨[⟨"a0", "code"⟩, ⟨"a1", "code"⟩, ⟨"a2", "code"⟩], []⟩
        [⟨"o1", some "code", "new"⟩]).cells.getD 0 defaultCell = ⟨"a0", "code"⟩ ∧
    ((updateNotebookCells "T" ["o1", "b", "o1"]
        ⟨[⟨"a0", "code"⟩, ⟨"a1", "code"⟩, ⟨"a2", "code"⟩], []⟩
        [⟨"o1", some "code", "new"⟩]).cells.getD 1 defaultCell).source ≠
      cellUpdateSourceOf "T" ⟨"o1", some "code", "new"⟩ := by
  refine ⟨by decide, by decide, by decide⟩

/-- Claim C2 amended: for an incoming update whose original id occurs more
than once in the identity mapping and has not yet absorbed an update, the
merge applies the update at the **last** occurrence of that id in document
order (`lastIndexOf`): every cell strictly before that position is
untouched (in particular the first occurrence), the duplicate-above lands
at the last occurrence's index and the timestamped overwrite right below
it. -/
theorem updateNotebookContent_targets_last_occurrence (timeReceived : String)
    (origCellMapping : List String) (st : SyncState) (u : CellUpdate) (i : Nat)
    (hfound : lastIndexOf origCellMapping u.id = some i)
    (hdup : 1 < origCellMapping.count u.id)
    (hfresh : u.id ∉ st.updatedCells)
    (hlen : origCellMapping.length = st.cells.length) :
    origCellMapping[i]? = some u.id ∧
    (∀ j, i < j → origCellMapping[j]? ≠ some u.id) ∧
    (∀ j, j < i →
      (updateNotebookCells timeReceived origCellMapping st [u]).cells.getD j defaultCell =
        st.cells.getD j defaultCell) ∧
    ((updateNotebookCells timeReceived origCellMapping st [u]).cells.getD i defaultCell).source =
      "# YOUR CODE\n\n" ++ (st.cells.getD i defaultCell).source ∧
    ((updateNotebookCells timeReceived origCellMapping st [u]).cells.getD (i + 1) defaultCell).source =
      cellUpdateSourceOf timeReceived u := by
  have hi : i < st.cells.length := hlen ▸ lastIndexOf_lt_length hfound
  have hcont : st.updatedCells.contains u.id = false := by simp [hfresh]
  rw [updateNotebookCells_singleton]
  refine ⟨lastIndexOf_getElem? hfound, lastIndexOf_last hfound, ?_⟩
  simp only [applyCellUpdate, hfound, hcont, Bool.false_eq_true, if_false]
  have hlen₁ : (st.cells.insertIdx i ⟨"", "code"⟩).length = st.cells.length + 1 :=
    List.length_insertIdx i st.cells (Nat.le_of_lt hi)
  by_cases hmd : cellTypeOf u = "markdown"
  · rw [if_pos hmd]
    refine ⟨?_, ?_, ?_⟩
    · intro j hj
      have hjlen : j < st.cells.length := by omega
      rw [List.getD_eq_getElem _ _ (by simp [List.length_set, hlen₁]; omega),
          List.getD_eq_getElem _ _ hjlen]
      rw [List.getElem_set_ne (by omega), List.getElem_set_ne (by omega),
          List.getElem_set_ne (by omega)]
      exact List.getElem_insertIdx_of_lt st.cells _ i j hj hjlen
    · rw [List.getD_eq_getElem _ _ (by simp [List.length_set, hlen₁]; omega)]
      rw [List.getElem_set_ne (by omega), List.getElem_set_self]
    · rw [List.getD_eq_getElem _ _ (by simp [List.length_set, hlen₁]; omega)]
      rw [List.getElem_set_self]
  · rw [if_neg hmd]
    refine ⟨?_, ?_, ?_⟩
    · intro j hj
      have hjlen : j < st.cells.length := by omega
      rw [List.getD_eq_getElem _ _ (by simp [List.length_set, hlen₁]; omega),
          List.getD_eq_getElem _ _ hjlen]
      rw [List.getElem_set_ne (by omega), List.getElem_set_ne (by omega)]
      exact List.getElem_insertIdx_of_lt st.cells _ i j hj hjlen
    · rw [List.getD_eq_getElem _ _ (by simp [List.length_set, hlen₁]; omega)]
      rw [List.getElem_set_ne (by omega), List.getElem_set_self]
    · rw [List.getD_eq_getElem _ _ (by simp [List.length_set, hlen₁]; omega)]
      rw [List.getElem_set_self]

/-- Witness for `updateNotebookContent_targets_last_occurrence` at the
counterexample's input. -/
theorem updateNotebookContent_targets_last_occurrence_witness :
    (∀ j, j < 2 →
      (updateNotebookCells "T" ["o1", "b", "o1"]
          ⟨[⟨"a0", "code"⟩, ⟨"a1", "code"⟩, ⟨"a2", "code"⟩], []⟩
          [⟨"o1", some "code", "new"⟩]).cells.getD j defaultCell =
        ([⟨"a0", "code"⟩, ⟨"a1", "code"⟩, ⟨"a2", "code"⟩] : List Cell).getD j defaultCell) ∧
    ((updateNotebookCells "T" ["o1", "b", "o1"]
        ⟨[⟨"a0", "code"⟩, ⟨"a1", "code"⟩, ⟨"a2", "code"⟩], []⟩
        [⟨"o1", some "code", "new"⟩]).cells.getD 3 defaultCell).source =
      cellUpdateSourceOf "T" ⟨"o1", some "code", "new"⟩ := by
  have h := updateNotebookContent_targets_last_occurrence "T" ["o1", "b", "o1"]
    ⟨[⟨"a0", "code"⟩, ⟨"a1", "code"⟩, ⟨"a2", "code"⟩], []⟩
    ⟨"o1", some "code", "new"⟩ 2 (by decide) (by decide) (by decide) (by decide)
  exact ⟨h.2.2.1, h.2.2.2.2⟩

/-- Claim C3: at the failing input — a live (non-disposed) panel whose host
document mutation raises — the try-block of `updateNotebookContent` fails,
but the catch at `notebookSync.ts:1384-1386` swallows the error, so
`applyPendingUpdate` still reaches `removePendingUpdate`
(`notebookSync.ts:275`) and deletes the entry from the Pending Update
Store even though the document was not mutated: the entry is *not* left in
the store for retry. (Only a *disposed* panel accidentally keeps the
entry, because `removePendingUpdate` itself early-returns on disposal.) -/
theorem applyPendingUpdate_removes_entry_despite_failed_apply :
    updateNotebookContentTry
        ⟨false, true, ["o1"], ⟨[⟨"print(1)", "code"⟩], []⟩⟩ "T"
        [⟨"o1", some "code", "print(2)"⟩] =
      Except.error "host document mutation raised" ∧
    (applyPendingUpdate
        ⟨false, true, ["o1"], ⟨[⟨"print(1)", "code"⟩], []⟩⟩
        [⟨"o1", [⟨"o1", some "code", "print(2)"⟩], "T", "s",
          SenderType.teacher, some "u1", some "o1"⟩]
        ⟨"o1", [⟨"o1", some "code", "print(2)"⟩], "T", "s",
          SenderType.teacher, some "u1", some "o1"⟩ "T").2 = [] ∧
    (applyPendingUpdate
        ⟨false, true, ["o1"], ⟨[⟨"print(1)", "code"⟩], []⟩⟩
        [⟨"o1", [⟨"o1", some "code", "print(2)"⟩], "T", "s",
          SenderType.teacher, some "u1", some "o1"⟩]
        ⟨"o1", [⟨"o1", some "code", "print(2)"⟩], "T", "s",
          SenderType.teacher, some "u1", some "o1"⟩ "T").1.sync =
      ⟨[⟨"print(1)", "code"⟩], []⟩ := by
  refine ⟨rfl, by decide, rfl⟩

theorem applyPendingUpdateLogs_skip (persistentUserId notebookId : Option String)
    (pending : IPendingUpdate) :
    applyPendingUpdateLogs persistentUserId notebookId pending true = [] := by
  simp [applyPendingUpdateLogs, updateNotebookContentLogs]

theorem flatMap_skip_logs (persistentUserId notebookId : Option String)
    (l : List IPendingUpdate) :
    l.flatMap (fun u => applyPendingUpdateLogs persistentUserId notebookId u true) = [] := by
  induction l with
  | nil => rfl
  | cons a l ih => simp [List.flatMap_cons, applyPendingUpdateLogs_skip, ih]

/-- Claim C9 counterexample: a non-empty filtered view whose first update
carries no `updateId` (the field is optional on `IPendingUpdate`)
produces *zero* `UPDATE_ALL` log records — the guard at
`notebookSync.ts:445` skips the aggregate log — refuting "logs exactly one
aggregate UPDATE_ALL interaction record" for every non-empty view. -/
theorem applyAll_missing_updateId_counterexample :
    (applyAllClick (some "user") (some "nb") false FilterMode.all []
        [⟨"c1", [⟨"c1", some "code", "x"⟩], "T", "s",
          SenderType.teacher, none, some "c1"⟩]).1 =
      [⟨"c1", [⟨"c1", some "code", "x"⟩], "T", "s",
        SenderType.teacher, none, some "c1"⟩] ∧
    getFilteredUpdates FilterMode.all []
        [⟨"c1", [⟨"c1", some "code", "x"⟩], "T", "s",
          SenderType.teacher, none, some "c1"⟩] ≠ [] ∧
    ((applyAllClick (some "user") (some "nb") false FilterMode.all []
        [⟨"c1", [⟨"c1", some "code", "x"⟩], "T", "s",
          SenderType.teacher, none, some "c1"⟩]).2.countP
      (fun r => r.action = "UPDATE_ALL")) = 0 := by
  refine ⟨by decide, by decide, by decide⟩

/-- Claim C9 amended: Apply All hands exactly the currently filtered view
(in order, and nothing else) to `applyPendingUpdate`; provided the first
filtered update carries an `updateId` and the persistent user id and
notebook id are available, exactly one aggregate `UPDATE_ALL` record is
logged, and no `APPLY_SINGLE` record is logged for any applied item. -/
theorem applyAll_filtered_view_single_aggregate_log (uid nb : String)
    (mode : FilterMode) (sel : List String) (store : List IPendingUpdate)
    (u0 : IPendingUpdate) (uidU : String)
    (hhead : (getFilteredUpdates mode sel store).head? = some u0)
    (hupd : u0.updateId = some uidU) :
    (applyAllClick (some uid) (some nb) false mode sel store).1 =
      getFilteredUpdates mode sel store ∧
    (applyAllClick (some uid) (some nb) false mode sel store).2 =
      [⟨"UPDATE_ALL", none, some u0.sender, some u0.senderType, some uidU⟩] ∧
    ((applyAllClick (some uid) (some nb) false mode sel store).2.countP
        (fun r => r.action = "APPLY_SINGLE")) = 0 := by
  have hni : (getFilteredUpdates mode sel store).isEmpty = false := by
    cases hfl : getFilteredUpdates mode sel store with
    | nil => rw [hfl] at hhead; simp at hhead
    | cons a l => simp
  have hlogs : (applyAllClick (some uid) (some nb) false mode sel store) =
      (getFilteredUpdates mode sel store,
        [⟨"UPDATE_ALL", none, some u0.sender, some u0.senderType, some uidU⟩]) := by
    simp only [applyAllClick, Bool.false_eq_true, if_false, hni, hhead, hupd,
      logPendingUpdateInteraction, flatMap_skip_logs, List.append_nil]
  refine ⟨by rw [hlogs], by rw [hlogs], by rw [hlogs]; simp [List.countP_cons]⟩

/-- Witness for `applyAll_filtered_view_single_aggregate_log` at a
concrete input. -/
theorem applyAll_filtered_view_single_aggregate_log_witness :
    (applyAllClick (some "user") (some "nb") false FilterMode.all []
        [⟨"c1", [⟨"c1", some "code", "x"⟩], "T", "s",
          SenderType.teammate, some "u1", some "c1"⟩]).1 =
      getFilteredUpdates FilterMode.all []
        [⟨"c1", [⟨"c1", some "code", "x"⟩], "T", "s",
          SenderType.teammate, some "u1", some "c1"⟩] ∧
    (applyAllClick (some "user") (some "nb") false FilterMode.all []
        [⟨"c1", [⟨"c1", some "code", "x"⟩], "T", "s",
          SenderType.teammate, some "u1", some "c1"⟩]).2 =
      [⟨"UPDATE_ALL", none, some "s", some SenderType.teammate, some "u1"⟩] := by
  have h := applyAll_filtered_view_single_aggregate_log "user" "nb" FilterMode.all []
    [⟨"c1", [⟨"c1", some "code", "x"⟩], "T", "s",
      SenderType.teammate, some "u1", some "c1"⟩]
    ⟨"c1", [⟨"c1", some "code", "x"⟩], "T", "s",
      SenderType.teammate, some "u1", some "c1"⟩ "u1" (by decide) (by decide)
  exact ⟨h.1, h.2.1⟩

theorem cellKeyLe_trans (a b c : Option Nat) (hab : cellKeyLe a b = true)
    (hbc : cellKeyLe b c = true) : cellKeyLe a c = true := by
  cases a <;> cases b <;> cases c <;> simp_all [cellKeyLe] <;> omega

theorem cellKeyLe_total (a b : Option Nat) :
    (cellKeyLe a b || cellKeyLe b a) = true := by
  cases a <;> cases b <;> simp_all [cellKeyLe] <;> omega

/-- Claim C8: sorting the pending updates by the `cell` key yields a list
ordered ascending by the target's position in the identity mapping
(`lastIndexOf`), with every unmapped update after all mapped updates, the
relative order among the unmapped updates preserved, and no update gained
or lost. -/
theorem sortPendingByCell_spec (origMapping : List String)
    (updates : List IPendingUpdate) :
    (sortPendingByCell origMapping updates).Pairwise
        (fun a b => cellKeyLe (cellSortKey origMapping a) (cellSortKey origMapping b) = true) ∧
    (sortPendingByCell origMapping updates).Pairwise
        (fun a b => cellSortKey origMapping a = none → cellSortKey origMapping b = none) ∧
    (sortPendingByCell origMapping updates).filter
        (fun u => (cellSortKey origMapping u).isNone) =
      updates.filter (fun u => (cellSortKey origMapping u).isNone) ∧
    (sortPendingByCell origMapping updates).Perm updates := by
  have htrans : ∀ (a b c : IPendingUpdate),
      cellKeyLe (cellSortKey origMapping a) (cellSortKey origMapping b) = true →
      cellKeyLe (cellSortKey origMapping b) (cellSortKey origMapping c) = true →
      cellKeyLe (cellSortKey origMapping a) (cellSortKey origMapping c) = true :=
    fun a b c => cellKeyLe_trans _ _ _
  have htotal : ∀ (a b : IPendingUpdate),
      (cellKeyLe (cellSortKey origMapping a) (cellSortKey origMapping b) ||
        cellKeyLe (cellSortKey origMapping b) (cellSortKey origMapping a)) = true :=
    fun a b => cellKeyLe_total _ _
  have hsorted := List.sorted_mergeSort htrans htotal updates
  have hperm : (sortPendingByCell origMapping updates).Perm updates :=
    List.mergeSort_perm updates _
  refine ⟨hsorted, ?_, ?_, hperm⟩
  · refine hsorted.imp ?_
    intro a b hle ha
    rw [ha] at hle
    cases hk : cellSortKey origMapping b with
    | none => rfl
    | some v => rw [hk] at hle; simp [cellKeyLe] at hle
  · have hc : (updates.filter (fun u => (cellSortKey origMapping u).isNone)).Pairwise
        (fun a b => cellKeyLe (cellSortKey origMapping a) (cellSortKey origMapping b) = true) := by
      refine List.pairwise_of_forall_mem_list ?_
      intro a ha b hb
      have ha' := Option.isNone_iff_eq_none.mp (List.mem_filter.mp ha).2
      have hb' := Option.isNone_iff_eq_none.mp (List.mem_filter.mp hb).2
      rw [ha', hb']
      rfl
    have hsub : (updates.filter (fun u => (cellSortKey origMapping u).isNone)).Sublist
        (sortPendingByCell origMapping updates) :=
      List.sublist_mergeSort htrans htotal hc (List.filter_sublist updates)
    have hsub2 : (updates.filter (fun u => (cellSortKey origMapping u).isNone)).Sublist
        ((sortPendingByCell origMapping updates).filter
          (fun u => (cellSortKey origMapping u).isNone)) := by
      have hstep := List.Sublist.filter (fun u => (cellSortKey origMapping u).isNone) hsub
      have hfix : (updates.filter (fun u => (cellSortKey origMapping u).isNone)).filter
          (fun u => (cellSortKey origMapping u).isNone) =
          updates.filter (fun u => (cellSortKey origMapping u).isNone) :=
        List.filter_eq_self.mpr (fun a ha => (List.mem_filter.mp ha).2)
      rwa [hfix] at hstep
    have hlen : (updates.filter (fun u => (cellSortKey origMapping u).isNone)).length =
        ((sortPendingByCell origMapping updates).filter
          (fun u => (cellSortKey origMapping u).isNone)).length :=
      ((hperm.filter (fun u => (cellSortKey origMapping u).isNone)).length_eq).symm
    exact (hsub2.eq_of_length hlen).symm

theorem findIdx?_first_colon (l t : List Char) (h : ':' ∉ l) :
    (l ++ ':' :: t).findIdx? (fun c => c = ':') = some l.length := by
  induction l with
  | nil => simp [List.findIdx?_cons]
  | cons a as ih =>
    simp only [List.mem_cons, not_or] at h
    rw [List.cons_append, List.findIdx?_cons, if_neg (by simpa using Ne.symm h.1),
      List.findIdx?_succ, ih h.2]
    simp

theorem fromPrefixCapture_wellformed (peerId body : List Char)
    (hne : peerId ≠ []) (hcolon : ':' ∉ peerId)
    (hheadws : peerId.takeWhile jsWhitespace = []) :
    fromPrefixCapture ('F' :: 'r' :: 'o' :: 'm' :: ' ' :: (peerId ++ ':' :: ' ' :: body)) =
      some peerId := by
  have hidx : (' ' :: (peerId ++ ':' :: ' ' :: body)).findIdx? (fun c => c = ':') =
      some (peerId.length + 1) := by
    have h := findIdx?_first_colon (' ' :: peerId) (' ' :: body) (by
      simp only [List.mem_cons, not_or]
      exact ⟨by decide, hcolon⟩)
    simpa using h
  have hws : (' ' :: (peerId ++ ':' :: ' ' :: body)).takeWhile jsWhitespace = [' '] := by
    obtain ⟨c, cs, rfl⟩ := List.exists_cons_of_ne_nil hne
    have hcws : jsWhitespace c = false := by
      rw [List.takeWhile_cons] at hheadws
      by_cases h : jsWhitespace c = true
      · rw [if_pos h] at hheadws
        simp at hheadws
      · simpa using h
    rw [List.takeWhile_cons, if_pos (by decide), List.cons_append,
      List.takeWhile_cons, if_neg (by simp [hcws])]
  have hlen : 1 ≤ peerId.length := List.length_pos.mpr hne
  simp only [fromPrefixCapture, hidx, hws]
  rw [if_pos (by simp; omega)]
  rw [Option.some.injEq]
  have h1 : (' ' :: (peerId ++ ':' :: ' ' :: body)).drop
      (min ([' '] : List Char).length (peerId.length + 1 - 1)) =
      peerId ++ ':' :: ' ' :: body := by
    have : min ([' '] : List Char).length (peerId.length + 1 - 1) = 1 := by simp; omega
    rw [this]
    rfl
  rw [h1]
  have h2 : peerId.length + 1 - min ([' '] : List Char).length (peerId.length + 1 - 1) =
      peerId.length := by simp; omega
  rw [h2]
  exact List.take_left peerId _

/-- Claim C7: a legacy string payload `From <peerId>: <body>` on the `'chat'`
event reaches the registered message callback as (full original string,
extracted peerId, senderType `'teacher'`); the same payload on the
`'group_chat'` event yields senderType `'teammate'`; and whenever the
`From <peerId>:` prefix does not match, the default sender (`'teacher'`
resp. `'teammate'`) is assumed instead of failing. The hypotheses pin the
well-formedness of `<peerId>` (non-empty, colon-free, not starting or
ending in whitespace). -/
theorem chat_normalizer_legacy_string (peerId body : List Char)
    (hne : peerId ≠ []) (hcolon : ':' ∉ peerId)
    (hheadws : peerId.takeWhile jsWhitespace = [])
    (htrim : trimChars peerId = peerId) :
    (chatEventArgs ('F' :: 'r' :: 'o' :: 'm' :: ' ' :: (peerId ++ ':' :: ' ' :: body)) =
        ('F' :: 'r' :: 'o' :: 'm' :: ' ' :: (peerId ++ ':' :: ' ' :: body), peerId,
          SenderType.teacher) ∧
      groupChatEventArgs ('F' :: 'r' :: 'o' :: 'm' :: ' ' :: (peerId ++ ':' :: ' ' :: body)) =
        ('F' :: 'r' :: 'o' :: 'm' :: ' ' :: (peerId ++ ':' :: ' ' :: body), peerId,
          SenderType.teammate)) ∧
    (∀ s, fromPrefixCapture s = none →
      chatEventArgs s = (s, "teacher".toList, SenderType.teacher) ∧
      groupChatEventArgs s = (s, "teammate".toList, SenderType.teammate)) := by
  have hcap := fromPrefixCapture_wellformed peerId body hne hcolon hheadws
  refine ⟨⟨?_, ?_⟩, fun s hs =>
    ⟨by simp [chatEventArgs, hs], by simp [groupChatEventArgs, hs]⟩⟩
  · simp [chatEventArgs, hcap, hne, htrim]
  · simp [groupChatEventArgs, hcap, hne, htrim]

/-- Witness for `chat_normalizer_legacy_string` at the spec's own example
`"From alice: hi"`. -/
theorem chat_normalizer_legacy_string_witness :
    chatEventArgs "From alice: hi".toList =
      ("From alice: hi".toList, "alice".toList, SenderType.teacher) ∧
    groupChatEventArgs "From alice: hi".toList =
      ("From alice: hi".toList, "alice".toList, SenderType.teammate) := by
  have h := (chat_normalizer_legacy_string "alice".toList "hi".toList
    (by decide) (by decide) (by decide) (by decide)).1
  have hlist : "From alice: hi".toList =
      'F' :: 'r' :: 'o' :: 'm' :: ' ' :: ("alice".toList ++ ':' :: ' ' :: "hi".toList) := by
    decide
  rw [hlist]
  exact h
